/-
Verification of the spec-bot phase-gated generation orchestrator and
response extraction layer, as a shallow embedding of the Python sources
(`backend/workflow_state.py`, `backend/workflow_nodes.py`, `backend/workflow.py`,
`backend/llm_utils.py`, `backend/api/workflow_routes.py`) in Lean 4.

Conventions:
  * Python dicts keyed by strings are modelled as association lists.
  * Python exceptions are modelled with `Except String`.
  * `datetime.utcnow().isoformat()` is modelled by an explicit `now : String`
    argument threaded through every mutating operation.
  * The LLM invocation capability is an explicit function parameter.
-/
import Mathlib

namespace SpecBot

/-! ## Data model (`backend/workflow_state.py`, `backend/models.py`) -/

/-- `WorkflowStatus` enum from `workflow_state.py`. -/
inductive WorkflowStatus where
  | initializing
  | generatingRequirements
  | awaitingRequirementsApproval
  | generatingDesign
  | awaitingDesignApproval
  | generatingTasks
  | awaitingTasksApproval
  | generatingFinalDocuments
  | completed
  | failed
  | cancelled
deriving DecidableEq, Repr

/-- `WorkflowAction` enum from `workflow_state.py`. -/
inductive WorkflowAction where
  | startGeneration
  | approve
  | reject
  | requestRevision
  | cancel
  | retry
deriving DecidableEq, Repr

/-- `WorkflowPhase` enum from `models.py`. -/
inductive WorkflowPhase where
  | requirements
  | design
  | tasks
  | completed
deriving DecidableEq, Repr

/-- One entry of `conversation_history` (see
`WorkflowStateManager.add_conversation_message`).  The metadata dict only ever
holds string values in the modelled code. -/
structure ConvMessage where
  role : String
  content : String
  timestamp : String
  metadata : List (String × String)
deriving DecidableEq, Repr

/-- The workflow record, with exactly the fields of the dict literal built by
`WorkflowStateManager.create_workflow_state` (`workflow_state.py` lines
128-153).  Note: that literal does *not* include a `written_file_paths` key,
even though the `WorkflowGraphState` TypedDict declares one; the runtime dict
therefore has no such key, and this structure mirrors the runtime dict.
`research_results` (`Optional[List[Dict[str, Any]]]`) is never written after
creation in the modelled code; its element type is abstracted to string pairs. -/
structure WorkflowRecord where
  workflowId : String
  featureName : String
  initialDescription : String
  status : WorkflowStatus
  currentPhase : WorkflowPhase
  requirementsContent : Option String
  designContent : Option String
  tasksContent : Option String
  requirementsApproved : Bool
  designApproved : Bool
  tasksApproved : Bool
  pendingApproval : Option String
  userFeedback : Option String
  lastUserAction : Option WorkflowAction
  conversationHistory : List ConvMessage
  llmProvider : String
  modelName : String
  researchEnabled : Bool
  researchResults : Option (List (String × String))
  retryCount : Nat
  lastError : Option String
  createdAt : String
  updatedAt : String
  generatedFiles : List (String × String)
deriving DecidableEq, Repr

/-- One key/value pair of an `updates` dict passed to
`WorkflowStateManager.update_workflow_state`.  The constructors are the keys
actually supplied by the modelled call sites. -/
inductive FieldUpdate where
  | status (v : WorkflowStatus)
  | currentPhase (v : WorkflowPhase)
  | requirementsContent (v : Option String)
  | designContent (v : Option String)
  | tasksContent (v : Option String)
  | requirementsApproved (v : Bool)
  | designApproved (v : Bool)
  | tasksApproved (v : Bool)
  | pendingApproval (v : Option String)
  | userFeedback (v : Option String)
  | lastUserAction (v : Option WorkflowAction)
  | conversationHistory (v : List ConvMessage)
  | retryCount (v : Nat)
  | lastError (v : Option String)
  | generatedFiles (v : List (String × String))
  | writtenFilePaths (v : List (String × String))
deriving DecidableEq, Repr

/-- Apply one update entry, mirroring the loop
`for key, value in updates.items(): if key in state: state[key] = value`.
Every constructor except `writtenFilePaths` names a key present in the created
record, so the assignment happens; `written_file_paths` is *not* a key of the
created dict, so that entry is silently skipped (see the association-list
store model below, which establishes this key-filtering behaviour from the
dict semantics). -/
def applyField (r : WorkflowRecord) : FieldUpdate → WorkflowRecord
  | .status v => { r with status := v }
  | .currentPhase v => { r with currentPhase := v }
  | .requirementsContent v => { r with requirementsContent := v }
  | .designContent v => { r with designContent := v }
  | .tasksContent v => { r with tasksContent := v }
  | .requirementsApproved v => { r with requirementsApproved := v }
  | .designApproved v => { r with designApproved := v }
  | .tasksApproved v => { r with tasksApproved := v }
  | .pendingApproval v => { r with pendingApproval := v }
  | .userFeedback v => { r with userFeedback := v }
  | .lastUserAction v => { r with lastUserAction := v }
  | .conversationHistory v => { r with conversationHistory := v }
  | .retryCount v => { r with retryCount := v }
  | .lastError v => { r with lastError := v }
  | .generatedFiles v => { r with generatedFiles := v }
  | .writtenFilePaths _ => r

/-! ## The store (`WorkflowStateManager._active_workflows`) -/

/-- The manager's `_active_workflows` dict. -/
abbrev Manager : Type := List (String × WorkflowRecord)

/-- Dict read: `self._active_workflows.get(workflow_id)`. -/
def mget : Manager → String → Option WorkflowRecord
  | [], _ => none
  | (k, v) :: t, id => if k = id then some v else mget t id

/-- Dict write: `self._active_workflows[workflow_id] = state`. -/
def mset : Manager → String → WorkflowRecord → Manager
  | [], id, r => [(id, r)]
  | (k, v) :: t, id, r => if k = id then (k, r) :: t else (k, v) :: mset t id r

/-- `WorkflowStateManager.create_workflow_state`: the initial record literal. -/
def initialRecord (workflowId featureName description llmProvider modelName : String)
    (researchEnabled : Bool) (now : String) : WorkflowRecord where
  workflowId := workflowId
  featureName := featureName
  initialDescription := description
  status := .initializing
  currentPhase := .requirements
  requirementsContent := none
  designContent := none
  tasksContent := none
  requirementsApproved := false
  designApproved := false
  tasksApproved := false
  pendingApproval := none
  userFeedback := none
  lastUserAction := none
  conversationHistory := []
  llmProvider := llmProvider
  modelName := modelName
  researchEnabled := researchEnabled
  researchResults := none
  retryCount := 0
  lastError := none
  createdAt := now
  updatedAt := now
  generatedFiles := []

/-- `WorkflowStateManager.create_workflow_state`. -/
def createWorkflowState (m : Manager) (workflowId featureName description
    llmProvider modelName : String) (researchEnabled : Bool) (now : String) :
    Manager × WorkflowRecord :=
  let r := initialRecord workflowId featureName description llmProvider modelName
    researchEnabled now
  (mset m workflowId r, r)

/-- `WorkflowStateManager.update_workflow_state`: merge the supplied fields
into the stored record and bump `updated_at`; `ValueError` if the id is
absent. -/
def updateWorkflowState (m : Manager) (workflowId : String)
    (updates : List FieldUpdate) (now : String) :
    Except String (Manager × WorkflowRecord) :=
  match mget m workflowId with
  | none => .error ("Workflow " ++ workflowId ++ " not found")
  | some r =>
    let r' := { updates.foldl applyField r with updatedAt := now }
    .ok (mset m workflowId r', r')

/-- `WorkflowStateManager.transition_to_phase`. -/
def transitionToPhase (m : Manager) (workflowId : String) (phase : WorkflowPhase)
    (status : WorkflowStatus) (now : String) :
    Except String (Manager × WorkflowRecord) :=
  updateWorkflowState m workflowId
    [.currentPhase phase, .status status, .pendingApproval none,
     .userFeedback none, .lastUserAction none, .retryCount 0, .lastError none]
    now

/-- `WorkflowStateManager.set_pending_approval`.  The `status_map` lookup
`status_map[phase]` raises `KeyError` for any phase other than the three
generation phases, before the store is touched. -/
def setPendingApproval (m : Manager) (workflowId phase content now : String) :
    Except String (Manager × WorkflowRecord) :=
  if phase = "requirements" then
    updateWorkflowState m workflowId
      [.status .awaitingRequirementsApproval, .pendingApproval (some "requirements"),
       .requirementsContent (some content)] now
  else if phase = "design" then
    updateWorkflowState m workflowId
      [.status .awaitingDesignApproval, .pendingApproval (some "design"),
       .designContent (some content)] now
  else if phase = "tasks" then
    updateWorkflowState m workflowId
      [.status .awaitingTasksApproval, .pendingApproval (some "tasks"),
       .tasksContent (some content)] now
  else
    .error ("KeyError: " ++ phase)

/-- The update entry assigning `True` to the key `phase + "_approved"` in the
approve branch: for the three known phases the key exists in the record; for
any other pending phase the synthesised key is not in the record dict and
`update_workflow_state` drops it. -/
def approvalFieldUpdate (pendingPhase : String) : List FieldUpdate :=
  if pendingPhase = "requirements" then [.requirementsApproved true]
  else if pendingPhase = "design" then [.designApproved true]
  else if pendingPhase = "tasks" then [.tasksApproved true]
  else []

/-- The status/phase updates added by the `APPROVE` branch of
`handle_user_approval`. -/
def approveUpdates (pendingPhase : String) : List FieldUpdate :=
  approvalFieldUpdate pendingPhase ++
    (if pendingPhase = "requirements" then
      [.status .generatingDesign, .currentPhase .design]
    else if pendingPhase = "design" then
      [.status .generatingTasks, .currentPhase .tasks]
    else if pendingPhase = "tasks" then
      [.status .generatingFinalDocuments, .currentPhase .completed]
    else [])

/-- The status updates added by the `REQUEST_REVISION` branch. -/
def revisionUpdates (pendingPhase : String) : List FieldUpdate :=
  if pendingPhase = "requirements" then [.status .generatingRequirements]
  else if pendingPhase = "design" then [.status .generatingDesign]
  else if pendingPhase = "tasks" then [.status .generatingTasks]
  else []

/-- `WorkflowStateManager.handle_user_approval`. -/
def handleUserApproval (m : Manager) (workflowId : String) (action : WorkflowAction)
    (feedback : Option String) (now : String) :
    Except String (Manager × WorkflowRecord) :=
  match mget m workflowId with
  | none => .error ("Workflow " ++ workflowId ++ " not found")
  | some r =>
    match r.pendingApproval with
    | none => .error ("No pending approval for workflow " ++ workflowId)
    | some pendingPhase =>
      let base : List FieldUpdate :=
        [.lastUserAction (some action), .userFeedback feedback, .pendingApproval none]
      let upds := base ++
        (match action with
         | .approve => approveUpdates pendingPhase
         | .requestRevision => revisionUpdates pendingPhase
         | .reject => [.status .cancelled]
         | _ => [])
      updateWorkflowState m workflowId upds now

/-- `WorkflowStateManager.add_conversation_message`. -/
def addConversationMessage (m : Manager) (workflowId role content : String)
    (metadata : List (String × String)) (now : String) :
    Except String (Manager × WorkflowRecord) :=
  match mget m workflowId with
  | none => .error ("Workflow " ++ workflowId ++ " not found")
  | some r =>
    updateWorkflowState m workflowId
      [.conversationHistory
        (r.conversationHistory ++ [⟨role, content, now, metadata⟩])] now

/-- The reset operation (`reset_workflow` in `api/workflow_routes.py`): the
`reset_updates` dict applied through `update_workflow_state`. -/
def resetWorkflow (m : Manager) (workflowId now : String) :
    Except String (Manager × WorkflowRecord) :=
  match mget m workflowId with
  | none => .error ("Workflow " ++ workflowId ++ " not found")
  | some _ =>
    updateWorkflowState m workflowId
      [.status .initializing, .currentPhase .requirements,
       .requirementsContent none, .designContent none, .tasksContent none,
       .requirementsApproved false, .designApproved false, .tasksApproved false,
       .pendingApproval none, .userFeedback none, .lastUserAction none,
       .retryCount 0, .lastError none, .generatedFiles []] now

/-! ## Generation nodes (`backend/workflow_nodes.py`) and routing
(`backend/workflow.py`) -/

/-- `generate_requirements_node`.  The LLM invocation
`await llm_client.generate(messages)` is abstracted to `genResult`
(`.ok content` for a successful response, `.error e` for a raised provider
exception).  The `try` block first forces status to `generating_requirements`,
then on success appends the assistant message and arms the approval gate; the
`except` block records the error, increments `retry_count` by one and sets the
status to `failed`.  Exceptions raised by the store itself (missing id)
propagate, matching the `except` block re-raising from its own update call. -/
def generateRequirementsNode (m : Manager) (workflowId : String)
    (genResult : Except String String) (now : String) :
    Except String (Manager × WorkflowRecord) :=
  match updateWorkflowState m workflowId [.status .generatingRequirements] now with
  | .error e => .error e
  | .ok (m1, r1) =>
    match genResult with
    | .ok content =>
      match addConversationMessage m1 workflowId "assistant" content
          [("phase", "requirements"), ("model", r1.modelName)] now with
      | .error e => .error e
      | .ok (m2, _) => setPendingApproval m2 workflowId "requirements" content now
    | .error e =>
      updateWorkflowState m1 workflowId
        [.status .failed, .lastError (some e), .retryCount (r1.retryCount + 1)] now

/-- `generate_final_documents_node`.  Template rendering and file writing are
external collaborators, abstracted to `renderOutcome` (document name to
rendered text) and `writeOutcome` (document name to path written); an
exception from either lands in the `except` block which records the error and
fails the workflow.  On success the node stores the documents, the written
paths and the `completed` status through `update_workflow_state`. -/
def generateFinalDocumentsNode (m : Manager) (workflowId : String)
    (renderOutcome : Except String (List (String × String)))
    (writeOutcome : Except String (List (String × String)))
    (now : String) : Except String (Manager × WorkflowRecord) :=
  match renderOutcome with
  | .error e =>
    updateWorkflowState m workflowId [.status .failed, .lastError (some e)] now
  | .ok documents =>
    match writeOutcome with
    | .error e =>
      updateWorkflowState m workflowId [.status .failed, .lastError (some e)] now
    | .ok writtenFiles =>
      updateWorkflowState m workflowId
        [.generatedFiles documents, .writtenFilePaths writtenFiles,
         .status .completed] now

/-- Conditional-edge targets of the requirements generation node
(`workflow.py`). -/
inductive RouteTarget where
  | humanApproval
  | generateRequirements
  | wfEnd
deriving DecidableEq, Repr

/-- `_route_from_requirements` (`workflow.py` lines 182-199): on `failed`
retry while `retry_count < 3`, otherwise end; on awaiting approval go to the
human gate; anything else ends. -/
def routeFromRequirements (r : WorkflowRecord) : RouteTarget :=
  if r.status = .failed then
    if r.retryCount < 3 then .generateRequirements else .wfEnd
  else if r.status = .awaitingRequirementsApproval then .humanApproval
  else .wfEnd

/-! ## Reachability through the state manager's operations -/

/-- One call to a state-manager operation, with arbitrary arguments: the
operation set named by the pending-approval invariant (create,
set_pending_approval, handle_user_approval, transition_to_phase, reset). -/
inductive StoreOp where
  | create (workflowId featureName description llmProvider modelName : String)
      (researchEnabled : Bool) (now : String)
  | setPending (workflowId phase content now : String)
  | approval (workflowId : String) (action : WorkflowAction)
      (feedback : Option String) (now : String)
  | transition (workflowId : String) (phase : WorkflowPhase)
      (status : WorkflowStatus) (now : String)
  | reset (workflowId now : String)

/-- Execute one operation against the store.  A raised exception leaves the
store unchanged (every operation validates before its single mutation). -/
def runOp (m : Manager) : StoreOp → Manager
  | .create id fn d lp mn re now => (createWorkflowState m id fn d lp mn re now).1
  | .setPending id ph c now =>
    match setPendingApproval m id ph c now with
    | .ok (m', _) => m'
    | .error _ => m
  | .approval id a fb now =>
    match handleUserApproval m id a fb now with
    | .ok (m', _) => m'
    | .error _ => m
  | .transition id ph st now =>
    match transitionToPhase m id ph st now with
    | .ok (m', _) => m'
    | .error _ => m
  | .reset id now =>
    match resetWorkflow m id now with
    | .ok (m', _) => m'
    | .error _ => m

/-- Execute a sequence of operations starting from the empty store. -/
def runOps (ops : List StoreOp) : Manager := ops.foldl runOp []

/-- The phase implied by an awaiting-approval status (`none` for every status
that is not an awaiting-approval state). -/
def awaitingPhase : WorkflowStatus → Option String
  | .awaitingRequirementsApproval => some "requirements"
  | .awaitingDesignApproval => some "design"
  | .awaitingTasksApproval => some "tasks"
  | _ => none

/-- The pending-approval consistency invariant: `pending_approval` is non-null
iff the status is an awaiting-approval state, and it names the phase implied
by that status. -/
def pendingInv (r : WorkflowRecord) : Prop :=
  r.pendingApproval = awaitingPhase r.status

instance (r : WorkflowRecord) : Decidable (pendingInv r) := by
  unfold pendingInv; infer_instance

/-! ## The record as a raw Python dict

The typed `WorkflowRecord` above relies on the fact that
`update_workflow_state` only merges keys already present in the stored dict.
This section models the dict directly as an association list, so that this
key-filtering behaviour is established from the dict semantics rather than
assumed:  `update_workflow_state` runs
`for key, value in updates.items(): if key in state: state[key] = value`
and then assigns `updated_at`. -/

/-- A value stored in the raw workflow dict (the union of the value types that
appear at the modelled call sites). -/
inductive DVal where
  | str (s : String)
  | optStr (s : Option String)
  | bool (b : Bool)
  | nat (n : Nat)
  | status (v : WorkflowStatus)
  | phase (v : WorkflowPhase)
  | action (v : Option WorkflowAction)
  | history (v : List ConvMessage)
  | strMap (v : List (String × String))
deriving DecidableEq, Repr

/-- A Python dict with string keys: an association list whose key order is
insertion order. -/
abbrev PyDict : Type := List (String × DVal)

/-- `key in state`. -/
def dictHasKey : PyDict → String → Bool
  | [], _ => false
  | (k', _) :: t, k => if k' = k then true else dictHasKey t k

/-- `state[key]` as an optional read (`None` when the key is absent). -/
def dictGet : PyDict → String → Option DVal
  | [], _ => none
  | (k', v) :: t, k => if k' = k then some v else dictGet t k

/-- `state[key] = value`: replace the first binding when the key exists,
append a new binding otherwise. -/
def dictSet : PyDict → String → DVal → PyDict
  | [], k, v => [(k, v)]
  | (k', v') :: t, k, v =>
    if k' = k then (k', v) :: t else (k', v') :: dictSet t k v

/-- The merge loop of `update_workflow_state`:
`for key, value in updates.items(): if key in state: state[key] = value`. -/
def dictMerge (st : PyDict) (updates : List (String × DVal)) : PyDict :=
  updates.foldl (fun s kv => if dictHasKey s kv.1 then dictSet s kv.1 kv.2 else s) st

/-- `update_workflow_state` on the raw dict: merge, then
`state["updated_at"] = now`. -/
def dictUpdate (st : PyDict) (updates : List (String × DVal)) (now : String) : PyDict :=
  dictSet (dictMerge st updates) "updated_at" (.str now)

/-- The dict literal built by `create_workflow_state` (lines 128-153 of
`workflow_state.py`), key for key and in order.  There is no
`written_file_paths` key. -/
def createDict (workflowId featureName description llmProvider modelName : String)
    (researchEnabled : Bool) (now : String) : PyDict :=
  [("workflow_id", .str workflowId),
   ("feature_name", .str featureName),
   ("initial_description", .str description),
   ("status", .status .initializing),
   ("current_phase", .phase .requirements),
   ("requirements_content", .optStr none),
   ("design_content", .optStr none),
   ("tasks_content", .optStr none),
   ("requirements_approved", .bool false),
   ("design_approved", .bool false),
   ("tasks_approved", .bool false),
   ("pending_approval", .optStr none),
   ("user_feedback", .optStr none),
   ("last_user_action", .action none),
   ("conversation_history", .history []),
   ("llm_provider", .str llmProvider),
   ("model_name", .str modelName),
   ("research_enabled", .bool researchEnabled),
   ("research_results", .optStr none),
   ("retry_count", .nat 0),
   ("last_error", .optStr none),
   ("created_at", .str now),
   ("updated_at", .str now),
   ("generated_files", .strMap [])]

/-- The updates dict supplied by `generate_final_documents_node` on success
(`workflow_nodes.py` lines 497-504). -/
def finalDocUpdates (documents writtenFiles : List (String × String)) :
    List (String × DVal) :=
  [("generated_files", .strMap documents),
   ("written_file_paths", .strMap writtenFiles),
   ("status", .status .completed)]

/-! ## Response extraction layer (`backend/llm_utils.py`)

Character-level model of `LLMResponseProcessor`.  Braces are written with
their escape codes throughout. -/

/-- Opening brace character. -/
def lb : Char := '\x7b'

/-- Closing brace character. -/
def rb : Char := '\x7d'

/-- Backtick character. -/
def btick : Char := Char.ofNat 96

/-- The three-backtick code fence. -/
def fence : List Char := [btick, btick, btick]

/-- Whitespace stripped by Python `str.strip()` (ASCII part). -/
def pyWs (c : Char) : Bool :=
  c = ' ' || c = '\t' || c = '\n' || c = '\r' || c = '\x0b' || c = '\x0c'

/-- `content.strip()`. -/
def pyStripList (cs : List Char) : List Char :=
  ((cs.dropWhile pyWs).reverse.dropWhile pyWs).reverse

/-- A JSON value as produced by `json.loads`.  Numeric literals keep their
source text (their numeric value plays no role here); `NaN`/`Infinity`
constants, accepted by Python by default, are numeric literals too. -/
inductive Json where
  | null
  | bool (b : Bool)
  | num (lit : String)
  | str (s : String)
  | arr (elems : List Json)
  | obj (entries : List (String × Json))
deriving Repr

/-- JSON insignificant whitespace (RFC 8259 / Python `json`). -/
def jsonWs (c : Char) : Bool :=
  c = ' ' || c = '\t' || c = '\n' || c = '\r'

/-- Digit test. -/
def isDigitCh (c : Char) : Bool := '0' ≤ c && c ≤ '9'

/-- Hex digit test. -/
def isHexCh (c : Char) : Bool :=
  isDigitCh c || ('a' ≤ c && c ≤ 'f') || ('A' ≤ c && c ≤ 'F')

/-- Parse the body of a JSON string after the opening quote, decoding the
standard escapes.  `\u` escapes decode to the code point (surrogate-pair
recombination is not modelled).  Unescaped control characters are rejected,
matching `json.loads` in its default strict mode. -/
def parseStrBody : Nat → List Char → List Char → Option (String × List Char)
  | 0, _, _ => none
  | _, acc, '"' :: rest => some (String.mk acc.reverse, rest)
  | fuel + 1, acc, '\\' :: e :: rest =>
    if e = '"' then parseStrBody fuel ('"' :: acc) rest
    else if e = '\\' then parseStrBody fuel ('\\' :: acc) rest
    else if e = '/' then parseStrBody fuel ('/' :: acc) rest
    else if e = 'b' then parseStrBody fuel ('\x08' :: acc) rest
    else if e = 'f' then parseStrBody fuel ('\x0c' :: acc) rest
    else if e = 'n' then parseStrBody fuel ('\n' :: acc) rest
    else if e = 'r' then parseStrBody fuel ('\r' :: acc) rest
    else if e = 't' then parseStrBody fuel ('\t' :: acc) rest
    else if e = 'u' then
      match rest with
      | h1 :: h2 :: h3 :: h4 :: rest' =>
        if isHexCh h1 && isHexCh h2 && isHexCh h3 && isHexCh h4 then
          let v := [h1, h2, h3, h4].foldl
            (fun n c => 16 * n +
              (if isDigitCh c then c.toNat - 48
               else if 'a' ≤ c then c.toNat - 87 else c.toNat - 55)) 0
          parseStrBody fuel (Char.ofNat v :: acc) rest'
        else none
      | _ => none
    else none
  | fuel + 1, acc, c :: rest =>
    if c.toNat < 32 then none else parseStrBody fuel (c :: acc) rest
  | _, _, [] => none

/-- Parse a JSON number literal (after an optional leading minus has been
checked by the caller); returns the literal text. -/
def parseNumTail (cs : List Char) : Option (List Char × List Char) :=
  let intPart : Option (List Char × List Char) :=
    match cs with
    | '0' :: rest => some (['0'], rest)
    | c :: rest =>
      if isDigitCh c && c ≠ '0' then
        let (ds, rest') := rest.span isDigitCh
        some (c :: ds, rest')
      else none
    | [] => none
  match intPart with
  | none => none
  | some (ip, rest1) =>
    let (fp, rest2) :=
      match rest1 with
      | '.' :: r =>
        let (ds, r') := r.span isDigitCh
        if ds.isEmpty then ([], rest1) else ('.' :: ds, r')
      | _ => ([], rest1)
    if fp.isEmpty && (match rest1 with | '.' :: _ => true | _ => false) then none
    else
      let (ep, rest3) :=
        match rest2 with
        | e :: r =>
          if e = 'e' || e = 'E' then
            match r with
            | s :: r' =>
              if s = '+' || s = '-' then
                let (ds, r'') := r'.span isDigitCh
                if ds.isEmpty then ([], rest2) else (e :: s :: ds, r'')
              else
                let (ds, r') := r.span isDigitCh
                if ds.isEmpty then ([], rest2) else (e :: ds, r')
            | [] => ([], rest2)
          else ([], rest2)
        | [] => ([], rest2)
      some (ip ++ fp ++ ep, rest3)

mutual

/-- Parse one JSON value (leading whitespace is skipped here). -/
def parseVal : Nat → List Char → Option (Json × List Char)
  | 0, _ => none
  | fuel + 1, cs =>
    match cs.dropWhile jsonWs with
    | [] => none
    | c :: rest =>
      if c = '"' then
        match parseStrBody (rest.length + 1) [] rest with
        | some (s, rest') => some (.str s, rest')
        | none => none
      else if c = lb then parseObjBody fuel [] rest true
      else if c = '[' then parseArrBody fuel [] rest true
      else if c = 't' then
        match rest with
        | 'r' :: 'u' :: 'e' :: rest' => some (.bool true, rest')
        | _ => none
      else if c = 'f' then
        match rest with
        | 'a' :: 'l' :: 's' :: 'e' :: rest' => some (.bool false, rest')
        | _ => none
      else if c = 'n' then
        match rest with
        | 'u' :: 'l' :: 'l' :: rest' => some (.null, rest')
        | _ => none
      else if c = 'N' then
        match rest with
        | 'a' :: 'N' :: rest' => some (.num "NaN", rest')
        | _ => none
      else if c = 'I' then
        match rest with
        | 'n' :: 'f' :: 'i' :: 'n' :: 'i' :: 't' :: 'y' :: rest' =>
          some (.num "Infinity", rest')
        | _ => none
      else if c = '-' then
        match rest with
        | 'I' :: 'n' :: 'f' :: 'i' :: 'n' :: 'i' :: 't' :: 'y' :: rest' =>
          some (.num "-Infinity", rest')
        | _ =>
          match parseNumTail rest with
          | some (lit, rest') => some (.num (String.mk ('-' :: lit)), rest')
          | none => none
      else if isDigitCh c then
        match parseNumTail (c :: rest) with
        | some (lit, rest') => some (.num (String.mk lit), rest')
        | none => none
      else none

/-- Parse an object body after the opening brace.  `first` marks whether no
entry has been read yet (so a closing brace yields the empty object). -/
def parseObjBody : Nat → List (String × Json) → List Char → Bool →
    Option (Json × List Char)
  | 0, _, _, _ => none
  | fuel + 1, acc, cs, first =>
    match cs.dropWhile jsonWs with
    | [] => none
    | c :: rest =>
      if c = rb && first then some (.obj acc.reverse, rest)
      else
        if c = '"' then
          match parseStrBody (rest.length + 1) [] rest with
          | none => none
          | some (k, rest1) =>
            match rest1.dropWhile jsonWs with
            | ':' :: rest2 =>
              match parseVal fuel rest2 with
              | none => none
              | some (v, rest3) =>
                match rest3.dropWhile jsonWs with
                | ',' :: rest4 => parseObjBody fuel ((k, v) :: acc) rest4 false
                | d :: rest4 =>
                  if d = rb then some (.obj ((k, v) :: acc).reverse, rest4)
                  else none
                | [] => none
            | _ => none
        else none

/-- Parse an array body after the opening bracket. -/
def parseArrBody : Nat → List Json → List Char → Bool → Option (Json × List Char)
  | 0, _, _, _ => none
  | fuel + 1, acc, cs, first =>
    match cs.dropWhile jsonWs with
    | [] => none
    | ']' :: rest =>
      if first then some (.arr acc.reverse, rest) else none
    | _ :: _ =>
      match parseVal fuel (cs.dropWhile jsonWs) with
      | none => none
      | some (v, rest1) =>
        match rest1.dropWhile jsonWs with
        | ',' :: rest2 => parseArrBody fuel (v :: acc) rest2 false
        | ']' :: rest2 => some (.arr (v :: acc).reverse, rest2)
        | _ => none

end

/-- `json.loads`: parse one value, allow trailing whitespace, require the
whole input consumed.  `none` models a raised `JSONDecodeError`. -/
def jsonLoads (s : String) : Option Json :=
  match parseVal (s.length + 1) s.data with
  | some (v, rest) => if (rest.dropWhile jsonWs).isEmpty then some v else none
  | none => none

/-- Whitespace matched by the regex class `\s` (ASCII part): the same
character set as `pyWs`. -/
def reWs (c : Char) : Bool := pyWs c

/-- Case-insensitively consume `pat` from the front of `cs` (for the
`(?:json)?` group under `re.IGNORECASE`). -/
def matchCI : List Char → List Char → Option (List Char)
  | [], cs => some cs
  | _ :: _, [] => none
  | p :: ps, c :: cs => if c.toLower = p then matchCI ps cs else none

/-- Does skipping `\s*` land on a closing code fence? -/
def wsThenFence (cs : List Char) : Bool :=
  fence.isPrefixOf (cs.dropWhile reWs)

/-- The lazy `.*?\}` of pattern 1: scan for the first closing brace that is
followed by optional whitespace and a closing fence; `acc` holds the capture
read so far, in reverse. -/
def lazyClose : List Char → List Char → Option (List Char)
  | _, [] => none
  | acc, c :: rest =>
    if c = rb && wsThenFence rest then some ((c :: acc).reverse)
    else lazyClose (c :: acc) rest

/-- The characters of the lowercase `json` tag. -/
def jsonTagChars : List Char := ['j', 's', 'o', 'n']

/-- Try pattern 1 at exactly this position: a fence, an optional
case-insensitive `json` tag, optional whitespace, then the lazily captured
brace-delimited block followed by optional whitespace and a closing fence.
(When `json` is a prefix but the brace fails to follow, the no-tag alternative
of `(?:json)?` cannot succeed either, because a `j` is neither whitespace nor
a brace — so no backtracking case is lost.) -/
def pat1At (cs : List Char) : Option (List Char) :=
  if fence.isPrefixOf cs then
    let r1 := cs.drop 3
    let r2 := match matchCI jsonTagChars r1 with
      | some r => r
      | none => r1
    match r2.dropWhile reWs with
    | [] => none
    | c :: tail => if c = lb then lazyClose [c] tail else none
  else none

/-- `re.search` for pattern 1: the leftmost position with a match. -/
def pat1Search : List Char → Option (List Char)
  | [] => none
  | c :: rest =>
    match pat1At (c :: rest) with
    | some m => some m
    | none => pat1Search rest

/-- Non-brace character class `[^{}]`. -/
def nonBrace (c : Char) : Bool := !(c = lb || c = rb)

/-- Pattern 3 matching after the opening brace: the regex
`\{[^{}]*(?:\{[^{}]*\}[^{}]*)*\}` is deterministic (the starred groups have
no viable backtracking), so it reads a run of non-braces, then repeatedly one
fully braced depth-one group followed by a run of non-braces, and finally
requires the closing brace.  Returns the match and the remaining input. -/
def pat3Go : Nat → List Char → List Char → Option (List Char × List Char)
  | 0, _, _ => none
  | fuel + 1, acc, cs =>
    let (run, rest) := cs.span nonBrace
    match rest with
    | [] => none
    | c :: tail =>
      if c = rb then some (acc ++ run ++ [rb], tail)
      else
        let (run2, rest2) := tail.span nonBrace
        match rest2 with
        | [] => none
        | c2 :: tail2 =>
          if c2 = rb then pat3Go fuel (acc ++ run ++ [lb] ++ run2 ++ [rb]) tail2
          else none

/-- Try pattern 3 at exactly this position (the head must be an opening
brace). -/
def pat3At : List Char → Option (List Char × List Char)
  | [] => none
  | c :: rest => if c = lb then pat3Go (rest.length + 1) [c] rest else none

/-- `re.findall` for pattern 3: non-overlapping matches, scanning left to
right. -/
def pat3FindAll : Nat → List Char → List (List Char)
  | 0, _ => []
  | _, [] => []
  | fuel + 1, cs@(_ :: rest) =>
    match pat3At cs with
    | some (m, after) => m :: pat3FindAll fuel after
    | none => pat3FindAll fuel rest

/-- The pattern-3 loop of `_extract_json_from_response`: the first found
match that `json.loads` accepts. -/
def pat3First (cs : List Char) : Option (List Char) :=
  (pat3FindAll (cs.length + 1) cs).find? (fun m => (jsonLoads (String.mk m)).isSome)

/-- Substring test for the multi-character markers. -/
def containsSeq (pat : List Char) : List Char → Bool
  | [] => pat.isEmpty
  | cs@(_ :: rest) => pat.isPrefixOf cs || containsSeq pat rest

/-- Pattern 4: `any(marker in content for marker in stuff)` with the marker
list `#`, `##`, `###`, triple backtick, `*`, `-`, `|`; the double and triple
hash checks are subsumed by the single hash. -/
def hasMarkdownMarker (cs : List Char) : Bool :=
  cs.contains '#' || containsSeq fence cs || cs.contains '*' ||
    cs.contains '-' || cs.contains '|'

/-- `ParseMode` enum. -/
inductive ParseMode where
  | json
  | markdown
  | conversation
deriving DecidableEq, Repr

/-- The `.value` of a `ParseMode`. -/
def ParseMode.value : ParseMode → String
  | .json => "json"
  | .markdown => "markdown"
  | .conversation => "conversation"

/-- `LLMResponseProcessor._extract_json_from_response`: strip, then the four
detection patterns in priority order. -/
def extractJsonFromResponse (content : String) : String × ParseMode :=
  let cs := pyStripList content.data
  match pat1Search cs with
  | some m => (String.mk (pyStripList m), .json)
  | none =>
    if (cs.head? = some lb) && (cs.getLast? = some rb) then
      (String.mk cs, .json)
    else
      match pat3First cs with
      | some m => (String.mk m, .json)
      | none =>
        if hasMarkdownMarker cs then (String.mk cs, .markdown)
        else (String.mk cs, .conversation)

/-! ## Parsing, validation and the retry loop (`llm_utils.py`) -/

/-- `ParseResult` dataclass. -/
structure ParseResult where
  success : Bool
  data : Option Json := none
  error : Option String := none
  mode : Option ParseMode := none
  rawContent : Option String := none

/-- A Pydantic validation model, abstracted to its `__name__` and the
predicate "validation succeeds on this parsed object". -/
def ValidationModel : Type := Option (String × (Json → Bool))

/-- `_get_cache_key`: hash of the content plus the model name.  The Python
string hash is modelled as injective, so the key keeps the content itself. -/
def cacheKey (content : String) (vm : ValidationModel) : String × String :=
  (content, match vm with | none => "none" | some (n, _) => n)

/-- The processor's `_response_cache`. -/
abbrev Cache : Type := List ((String × String) × ParseResult)

/-- `LLMResponseProcessor.parse_json_response` (with `cache_enabled`), for a
given cache; returns the result and the possibly extended cache.  Exception
texts interpolated into error messages (`JSONDecodeError`, `ValidationError`)
are abbreviated to fixed prefixes; no modelled claim inspects them. -/
def parseJsonResponse (cache : Cache) (content : String) (vm : ValidationModel)
    (strict : Bool) : ParseResult × Cache :=
  match cache.find? (fun kv => kv.1 == cacheKey content vm) with
  | some kv => (kv.2, cache)
  | none =>
    let ex := extractJsonFromResponse content
    if ex.2 ≠ ParseMode.json then
      (⟨false, none, some ("No JSON content detected, found " ++ ex.2.value),
        some ex.2, some content⟩, cache)
    else
      match jsonLoads ex.1 with
      | none =>
        (⟨false, none, some "JSON parsing failed", some .json, some content⟩, cache)
      | some parsed =>
        let result : ParseResult :=
          match vm with
          | none => ⟨true, some parsed, none, some .json, some content⟩
          | some (_, check) =>
            if check parsed then ⟨true, some parsed, none, some .json, some content⟩
            else if strict then
              ⟨false, none, some "Validation failed", some .json, some content⟩
            else ⟨true, some parsed, none, some .json, some content⟩
        (result, cache ++ [(cacheKey content vm, result)])

/-- A role-tagged message. -/
structure LLMMessage where
  role : String
  content : String
deriving DecidableEq, Repr

/-- The corrective instruction appended on retries when no custom
`retry_prompt` is given. -/
def defaultRetryInstruction : String :=
  "The previous response could not be parsed as valid JSON. " ++
  "Please provide your response as valid JSON format only, " ++
  "enclosed in ```json``` markdown code blocks."

/-- The messages used by retry attempts: the original list plus the
corrective user instruction. -/
def retryMessagesOf (messages : List LLMMessage) (retryPrompt : Option String) :
    List LLMMessage :=
  messages ++ [⟨"user", retryPrompt.getD defaultRetryInstruction⟩]

/-- The overall-failure `ParseResult` returned when every attempt is
exhausted. -/
def failureResult (maxRetries : Nat) (lastError : Option String) : ParseResult :=
  ⟨false, none,
   some ("Failed after " ++ toString (maxRetries + 1) ++ " attempts. Last error: "
     ++ lastError.getD "None"),
   some .json, none⟩

/-- The conversation-mode fallback `ParseResult` built on the final attempt
when the detected mode was markdown or conversation. -/
def fallbackResult (content : String) : ParseResult :=
  ⟨true, some (.obj [("content", .str content), ("mode", .str "conversation")]),
   none, some .conversation, some content⟩

/-- The observable outcome of `parse_with_retry`: the returned result, the
number of `llm_client.generate` invocations, and the backoff sleeps (in
seconds, in order). -/
structure RetryTrace where
  result : ParseResult
  calls : Nat
  sleeps : List Nat

/-- The loop body of `LLMResponseProcessor.parse_with_retry`.  `gen i msgs`
is the model-invocation capability at attempt `i` (`.error` models a raised
exception).  `fuel` counts the remaining iterations of
`for attempt in range(max_retries + 1)`; it is `maxRetries + 1 - attempt` at
every call.  `sleeps` accumulates backoff delays in reverse. -/
def parseWithRetryGo (gen : Nat → List LLMMessage → Except String String)
    (vm : ValidationModel) (messages retryMessages : List LLMMessage)
    (maxRetries : Nat) :
    Nat → Nat → Option String → Cache → Nat → List Nat → RetryTrace
  | _, 0, lastError, _, calls, sleeps =>
    ⟨failureResult maxRetries lastError, calls, sleeps.reverse⟩
  | attempt, fuel + 1, lastError, cache, calls, sleeps =>
    let msgs := if attempt = 0 then messages else retryMessages
    match gen attempt msgs with
    | .error e =>
      if attempt = maxRetries then
        ⟨failureResult maxRetries (some e), calls + 1, sleeps.reverse⟩
      else
        parseWithRetryGo gen vm messages retryMessages maxRetries
          (attempt + 1) fuel (some e) cache (calls + 1) (2 ^ attempt :: sleeps)
    | .ok content =>
      let (pr, cache') := parseJsonResponse cache content vm true
      if pr.success then ⟨pr, calls + 1, sleeps.reverse⟩
      else if attempt = maxRetries then
        if pr.mode = some .conversation || pr.mode = some .markdown then
          ⟨fallbackResult content, calls + 1, sleeps.reverse⟩
        else ⟨failureResult maxRetries pr.error, calls + 1, sleeps.reverse⟩
      else
        parseWithRetryGo gen vm messages retryMessages maxRetries
          (attempt + 1) fuel pr.error cache' (calls + 1) sleeps

/-- `LLMResponseProcessor.parse_with_retry` on a processor with cache state
`cache`: run `max_retries + 1` attempts starting at attempt 0. -/
def parseWithRetry (gen : Nat → List LLMMessage → Except String String)
    (vm : ValidationModel) (messages : List LLMMessage)
    (retryPrompt : Option String) (maxRetries : Nat) (cache : Cache) : RetryTrace :=
  parseWithRetryGo gen vm messages (retryMessagesOf messages retryPrompt)
    maxRetries 0 (maxRetries + 1) none cache 0 []

/-- `generate_and_parse`: a fresh processor (empty cache, default retry
prompt) driving `parse_with_retry`. -/
def generateAndParse (gen : Nat → List LLMMessage → Except String String)
    (messages : List LLMMessage) (vm : ValidationModel) (maxRetries : Nat) :
    RetryTrace :=
  parseWithRetry gen vm messages none maxRetries []

/-! ## Helper lemmas -/

theorem mget_mset (m : Manager) (id id' : String) (r : WorkflowRecord) :
    mget (mset m id r) id' = if id' = id then some r else mget m id' := by
  induction m with
  | nil =>
    by_cases h : id' = id
    · subst h; simp [mset, mget]
    · have h2 : ¬ id = id' := fun hh => h hh.symm
      simp [mset, mget, h, h2]
  | cons head tail ih =>
    obtain ⟨k, v⟩ := head
    by_cases hk : k = id
    · subst hk
      by_cases h : k = id'
      · subst h; simp [mset, mget]
      · have h2 : ¬ id' = k := fun hh => h hh.symm
        simp [mset, mget, h, h2]
    · by_cases h : k = id'
      · subst h
        simp [mset, mget, hk]
      · simp [mset, mget, hk, h, ih]

theorem mget_mset_self (m : Manager) (id : String) (r : WorkflowRecord) :
    mget (mset m id r) id = some r := by
  simp [mget_mset]

theorem updateWorkflowState_of_mget (m : Manager) (id : String)
    (upds : List FieldUpdate) (now : String) (r : WorkflowRecord)
    (h : mget m id = some r) :
    updateWorkflowState m id upds now =
      .ok (mset m id { upds.foldl applyField r with updatedAt := now },
           { upds.foldl applyField r with updatedAt := now }) := by
  unfold updateWorkflowState
  rw [h]

/-- Claim C8 helper: no update entry in the approve/revision/reject branches
re-establishes `pending_approval` after the base updates cleared it. -/
theorem foldl_applyField_pendingApproval (upds : List FieldUpdate)
    (h : ∀ v, FieldUpdate.pendingApproval v ∉ upds) (r : WorkflowRecord) :
    (upds.foldl applyField r).pendingApproval = r.pendingApproval := by
  induction upds generalizing r with
  | nil => rfl
  | cons u rest ih =>
    have hrest : ∀ v, FieldUpdate.pendingApproval v ∉ rest := by
      intro v hv
      exact h v (List.mem_cons_of_mem _ hv)
    rw [List.foldl_cons, ih hrest]
    cases u with
    | pendingApproval v => exact absurd (List.mem_cons_self _ _) (h v)
    | _ => rfl

theorem pendingApproval_not_in_approveUpdates (p : String) (v : Option String) :
    FieldUpdate.pendingApproval v ∉ approveUpdates p := by
  unfold approveUpdates approvalFieldUpdate
  split_ifs <;> simp

theorem pendingApproval_not_in_revisionUpdates (p : String) (v : Option String) :
    FieldUpdate.pendingApproval v ∉ revisionUpdates p := by
  unfold revisionUpdates
  split_ifs <;> simp

theorem approveUpdates_requirements_eq : approveUpdates "requirements" =
    [.requirementsApproved true, .status .generatingDesign, .currentPhase .design] := by
  decide

theorem approveUpdates_design_eq : approveUpdates "design" =
    [.designApproved true, .status .generatingTasks, .currentPhase .tasks] := by
  decide

theorem approveUpdates_tasks_eq : approveUpdates "tasks" =
    [.tasksApproved true, .status .generatingFinalDocuments, .currentPhase .completed] := by
  decide

theorem revisionUpdates_requirements_eq : revisionUpdates "requirements" =
    [.status .generatingRequirements] := by
  decide

theorem revisionUpdates_design_eq : revisionUpdates "design" =
    [.status .generatingDesign] := by
  decide

theorem revisionUpdates_tasks_eq : revisionUpdates "tasks" =
    [.status .generatingTasks] := by
  decide

theorem approvalBranch_no_pending (action : WorkflowAction) (p : String)
    (v : Option String) :
    FieldUpdate.pendingApproval v ∉ (match action with
      | .approve => approveUpdates p
      | .requestRevision => revisionUpdates p
      | .reject => [FieldUpdate.status .cancelled]
      | _ => []) := by
  cases action <;>
    simp [pendingApproval_not_in_approveUpdates, pendingApproval_not_in_revisionUpdates]

/-- After any successful `handle_user_approval`, the stored record has
`pending_approval = None` and the store maps the id to that record. -/
theorem handleUserApproval_clears_pending (m : Manager) (id : String)
    (action : WorkflowAction) (fb : Option String) (now : String)
    (m' : Manager) (r' : WorkflowRecord)
    (h : handleUserApproval m id action fb now = .ok (m', r')) :
    r'.pendingApproval = none ∧ m' = mset m id r' := by
  cases hr : mget m id with
  | none =>
    simp only [handleUserApproval, hr] at h
    exact Except.noConfusion h
  | some r =>
    cases hp : r.pendingApproval with
    | none =>
      simp only [handleUserApproval, hr, hp] at h
      exact Except.noConfusion h
    | some p =>
      simp only [handleUserApproval, hr, hp,
        updateWorkflowState_of_mget m id _ now r hr,
        Except.ok.injEq, Prod.mk.injEq] at h
      obtain ⟨hm, hrec⟩ := h
      subst hrec
      refine ⟨?_, hm.symm⟩
      simp only [List.foldl_append,
        foldl_applyField_pendingApproval _ (approvalBranch_no_pending action p)]
      rfl

/-! ## Claim C8 -/

/-- Claim C8: for every workflow with a pending approval, approving twice in
a row with no intervening generation fails the second call with the
invalid-state error "No pending approval", because the first approve clears
`pending_approval`. -/
theorem c8_approve_twice_invalid_state (m : Manager) (id : String)
    (r : WorkflowRecord) (p : String) (fb fb' : Option String) (t t' : String)
    (m' : Manager) (r' : WorkflowRecord)
    (hr : mget m id = some r) (hp : r.pendingApproval = some p)
    (h1 : handleUserApproval m id .approve fb t = .ok (m', r')) :
    handleUserApproval m' id .approve fb' t' =
      .error ("No pending approval for workflow " ++ id) := by
  obtain ⟨hpend, hm⟩ := handleUserApproval_clears_pending m id _ fb t m' r' h1
  subst hm
  simp only [handleUserApproval, mget_mset_self, hpend]

/-- The store after creating workflow `w` and arming the requirements
approval gate. -/
def armedStore : Manager :=
  runOps [.create "w" "feat" "desc" "openai" "gpt" true "t0",
          .setPending "w" "requirements" "REQS" "t1"]

/-- The record stored for `w` in `armedStore`. -/
def armedRecord : WorkflowRecord :=
  (mget armedStore "w").getD (initialRecord "" "" "" "" "" false "")

/-- The store after the first approve call. -/
def c8MAfter : Manager := runOp armedStore (.approval "w" .approve none "t2")

/-- The record returned by the first approve call. -/
def c8RAfter : WorkflowRecord :=
  (mget c8MAfter "w").getD (initialRecord "" "" "" "" "" false "")

theorem c8_approve_twice_witness :
    armedRecord.pendingApproval = some "requirements" ∧
    handleUserApproval c8MAfter "w" .approve none "t3" =
      .error ("No pending approval for workflow " ++ "w") :=
  ⟨by decide,
   c8_approve_twice_invalid_state armedStore "w" armedRecord "requirements" none none "t2" "t3"
     c8MAfter c8RAfter (by decide) (by decide) rfl⟩

/-! ## Claim C10 -/

/-- For actions outside approve/request_revision/reject the gate applies only
the base updates: record the action and feedback and clear the pending
approval. -/
theorem handleUserApproval_default (m : Manager) (id : String)
    (r : WorkflowRecord) (p : String) (fb : Option String) (now : String)
    (a : WorkflowAction)
    (hr : mget m id = some r) (hp : r.pendingApproval = some p)
    (hmatch : (match a with
      | WorkflowAction.approve => approveUpdates p
      | WorkflowAction.requestRevision => revisionUpdates p
      | WorkflowAction.reject => [FieldUpdate.status .cancelled]
      | _ => []) = []) :
    handleUserApproval m id a fb now = .ok
      (mset m id
        { r with
            lastUserAction := some a
            userFeedback := fb
            pendingApproval := none
            updatedAt := now },
        { r with
            lastUserAction := some a
            userFeedback := fb
            pendingApproval := none
            updatedAt := now }) := by
  simp only [handleUserApproval, hr, hp, hmatch, List.append_nil,
    updateWorkflowState_of_mget m id _ now r hr]
  rfl

/-- Claim C10: with a non-null pending approval, invoking the gate with an
action outside approve/request_revision/reject (cancel, retry or
start_generation) succeeds: it clears `pending_approval`, records the action
and the feedback, and leaves `status` (and `current_phase`) unchanged, so the
pending approval is consumed without any phase transition. -/
theorem c10_nonstandard_action_consumes_pending (m : Manager) (id : String)
    (r : WorkflowRecord) (p : String) (action : WorkflowAction)
    (fb : Option String) (now : String)
    (hr : mget m id = some r) (hp : r.pendingApproval = some p)
    (ha : action = .cancel ∨ action = .retry ∨ action = .startGeneration) :
    ∃ m' r', handleUserApproval m id action fb now = .ok (m', r') ∧
      r'.pendingApproval = none ∧ r'.lastUserAction = some action ∧
      r'.userFeedback = fb ∧ r'.status = r.status ∧
      r'.currentPhase = r.currentPhase := by
  rcases ha with h | h | h <;> subst h <;>
    exact ⟨_, _, handleUserApproval_default m id r p fb now _ hr hp rfl,
      rfl, rfl, rfl, rfl, rfl⟩

theorem c10_nonstandard_action_witness :
    armedRecord.pendingApproval = some "requirements" ∧
    ∃ m' r', handleUserApproval armedStore "w" .cancel (some "why") "t2" = .ok (m', r') ∧
      r'.pendingApproval = none ∧ r'.lastUserAction = some .cancel ∧
      r'.userFeedback = some "why" ∧ r'.status = armedRecord.status ∧
      r'.currentPhase = armedRecord.currentPhase :=
  ⟨by decide,
   c10_nonstandard_action_consumes_pending armedStore "w" armedRecord "requirements" .cancel
     (some "why") "t2" (by decide) (by decide) (Or.inl rfl)⟩

/-! ## Claim C2 -/

/-- The store after creating workflow `w`, arming the tasks approval gate and
approving the tasks phase (no final-document generation has run). -/
def c2Store : Manager :=
  runOps [.create "w" "feat" "desc" "openai" "gpt" true "t0",
          .setPending "w" "tasks" "TASKS" "t1",
          .approval "w" .approve none "t2"]

/-- Claim C2 counterexample: immediately after the approve action for the
tasks phase — before any final documents are produced (`generated_files` is
still empty) — the record's `current_phase` is already `completed`.  The
claim asserts the phase is marked completed only after the documents are
actually produced, not at approval time; the code does it at approval time
(it is the *status* that waits for document generation). -/
theorem c2_phase_completed_at_approval_counterexample :
    (mget c2Store "w").map (fun r => (r.currentPhase, r.status, r.generatedFiles)) =
      some (.completed, .generatingFinalDocuments, []) := by
  decide

/-- Claim C2 (amended): approving the tasks phase sets the status to
`generating_final_documents` and sets `current_phase` to `completed` at
approval time; the *status* is marked `completed` only after final-document
generation succeeds and stores the produced documents. -/
theorem c2_tasks_approval_behavior (m : Manager) (id : String)
    (r : WorkflowRecord) (fb : Option String) (now : String)
    (hr : mget m id = some r) (hp : r.pendingApproval = some "tasks") :
    ∃ m' r', handleUserApproval m id .approve fb now = .ok (m', r') ∧
      r'.status = .generatingFinalDocuments ∧
      r'.currentPhase = .completed ∧
      (∀ docs written now2 m2 r2,
        generateFinalDocumentsNode m' id (.ok docs) (.ok written) now2 = .ok (m2, r2) →
        r2.status = .completed ∧ r2.generatedFiles = docs) := by
  have key : handleUserApproval m id .approve fb now = .ok
      (mset m id
        { r with
            lastUserAction := some .approve
            userFeedback := fb
            pendingApproval := none
            tasksApproved := true
            status := .generatingFinalDocuments
            currentPhase := .completed
            updatedAt := now },
        { r with
            lastUserAction := some .approve
            userFeedback := fb
            pendingApproval := none
            tasksApproved := true
            status := .generatingFinalDocuments
            currentPhase := .completed
            updatedAt := now }) := by
    simp only [handleUserApproval, hr, hp, approveUpdates_tasks_eq,
      updateWorkflowState, List.cons_append, List.nil_append,
      List.foldl_cons, List.foldl_nil, applyField]
  refine ⟨_, _, key, rfl, rfl, ?_⟩
  intro docs written now2 m2 r2 hnode
  simp only [generateFinalDocumentsNode, updateWorkflowState, mget_mset_self,
    Except.ok.injEq, Prod.mk.injEq] at hnode
  obtain ⟨hm2, hr2⟩ := hnode
  subst hr2
  exact ⟨rfl, rfl⟩

/-- The store with the tasks approval gate armed (for the C2 witness). -/
def c2Armed : Manager :=
  runOps [.create "w" "feat" "desc" "openai" "gpt" true "t0",
          .setPending "w" "tasks" "TASKS" "t1"]

/-- The record stored for `w` in `c2Armed`. -/
def c2Rec : WorkflowRecord :=
  (mget c2Armed "w").getD (initialRecord "" "" "" "" "" false "")

theorem c2_tasks_approval_witness :
    c2Rec.pendingApproval = some "tasks" ∧
    ∃ m' r', handleUserApproval c2Armed "w" .approve none "t2" = .ok (m', r') ∧
      r'.status = .generatingFinalDocuments ∧
      r'.currentPhase = .completed ∧
      (∀ docs written now2 m2 r2,
        generateFinalDocumentsNode m' "w" (.ok docs) (.ok written) now2 = .ok (m2, r2) →
        r2.status = .completed ∧ r2.generatedFiles = docs) :=
  ⟨by decide,
   c2_tasks_approval_behavior c2Armed "w" c2Rec none "t2" (by decide) (by decide)⟩

/-! ## Claim C3 -/

/-- Fresh store with workflow `w`. -/
def c3Store0 : Manager :=
  (createWorkflowState [] "w" "feat" "desc" "openai" "gpt" true "t0").1

/-- The store after a failed requirements generation attempt. -/
def c3Store1 : Manager :=
  match generateRequirementsNode c3Store0 "w" (.error "boom") "t1" with
  | .ok (m, _) => m
  | .error _ => c3Store0

/-- The store after a subsequent successful requirements generation, which
arms the approval gate via `set_pending_approval`. -/
def c3Store2 : Manager :=
  match generateRequirementsNode c3Store1 "w" (.ok "REQS") "t2" with
  | .ok (m, _) => m
  | .error _ => c3Store1

/-- Claim C3 counterexample: a workflow that enters the awaiting-approval
state after a failed attempt followed by a successful one carries
`retry_count = 1` and `last_error = "boom"` — `set_pending_approval` neither
resets the retry counter nor clears the last error. -/
theorem c3_awaiting_entry_counterexample :
    (mget c3Store2 "w").map (fun r => (r.status, r.retryCount, r.lastError)) =
      some (.awaitingRequirementsApproval, 1, some "boom") := by
  decide

/-- Claim C3 (amended): entering an awaiting-approval state through
`set_pending_approval` leaves `retry_count` and `last_error` unchanged;
they are reset to 0 / cleared only by `transition_to_phase` and by the reset
operation. -/
theorem c3_retry_error_frame :
    (∀ (m : Manager) (id phase content now : String) (r r' : WorkflowRecord)
       (m' : Manager),
       mget m id = some r →
       setPendingApproval m id phase content now = .ok (m', r') →
       r'.retryCount = r.retryCount ∧ r'.lastError = r.lastError) ∧
    (∀ (m : Manager) (id : String) (phase : WorkflowPhase)
       (status : WorkflowStatus) (now : String) (m' : Manager)
       (r' : WorkflowRecord),
       transitionToPhase m id phase status now = .ok (m', r') →
       r'.retryCount = 0 ∧ r'.lastError = none) ∧
    (∀ (m : Manager) (id now : String) (m' : Manager) (r' : WorkflowRecord),
       resetWorkflow m id now = .ok (m', r') →
       r'.retryCount = 0 ∧ r'.lastError = none) := by
  refine ⟨?_, ?_, ?_⟩
  · intro m id phase content now r r' m' hr h
    by_cases h1 : phase = "requirements"
    · subst h1
      simp only [setPendingApproval, eq_self_iff_true, if_true,
        updateWorkflowState, hr, Except.ok.injEq, Prod.mk.injEq] at h
      obtain ⟨_, hrec⟩ := h
      subst hrec
      exact ⟨rfl, rfl⟩
    · by_cases h2 : phase = "design"
      · subst h2
        simp only [setPendingApproval, String.reduceEq, ite_false,
          eq_self_iff_true, if_true, updateWorkflowState, hr,
          Except.ok.injEq, Prod.mk.injEq] at h
        obtain ⟨_, hrec⟩ := h
        subst hrec
        exact ⟨rfl, rfl⟩
      · by_cases h3 : phase = "tasks"
        · subst h3
          simp only [setPendingApproval, String.reduceEq, ite_false,
            eq_self_iff_true, if_true, updateWorkflowState, hr,
            Except.ok.injEq, Prod.mk.injEq] at h
          obtain ⟨_, hrec⟩ := h
          subst hrec
          exact ⟨rfl, rfl⟩
        · simp only [setPendingApproval, if_neg h1, if_neg h2, if_neg h3] at h
          exact Except.noConfusion h
  · intro m id phase status now m' r' h
    cases hr : mget m id with
    | none =>
      simp only [transitionToPhase, updateWorkflowState, hr] at h
      exact Except.noConfusion h
    | some r =>
      simp only [transitionToPhase, updateWorkflowState, hr,
        Except.ok.injEq, Prod.mk.injEq] at h
      obtain ⟨_, hrec⟩ := h
      subst hrec
      exact ⟨rfl, rfl⟩
  · intro m id now m' r' h
    cases hr : mget m id with
    | none =>
      simp only [resetWorkflow, hr] at h
      exact Except.noConfusion h
    | some r =>
      simp only [resetWorkflow, updateWorkflowState, hr,
        Except.ok.injEq, Prod.mk.injEq] at h
      obtain ⟨_, hrec⟩ := h
      subst hrec
      exact ⟨rfl, rfl⟩

/-- The record stored for `w` in `c3Store0`. -/
def c3Rec0 : WorkflowRecord :=
  (mget c3Store0 "w").getD (initialRecord "" "" "" "" "" false "")

/-- The store and record produced by arming the requirements gate on
`c3Store0`. -/
def c3WitnessPair : Manager × WorkflowRecord :=
  match setPendingApproval c3Store0 "w" "requirements" "C" "t9" with
  | .ok p => p
  | .error _ => (c3Store0, c3Rec0)

theorem c3_retry_error_frame_witness :
    mget c3Store0 "w" = some c3Rec0 ∧
    (c3WitnessPair.2.retryCount = c3Rec0.retryCount ∧
     c3WitnessPair.2.lastError = c3Rec0.lastError) :=
  ⟨by decide,
   c3_retry_error_frame.1 c3Store0 "w" "requirements" "C" "t9" c3Rec0
     c3WitnessPair.2 c3WitnessPair.1 (by decide) rfl⟩

/-! ## Claim C4 -/

/-- Fresh store with workflow `w` (for the C4 counterexample). -/
def c4Store : Manager :=
  (createWorkflowState [] "w" "feat" "desc" "openai" "gpt" true "t0").1

/-- Claim C4 counterexample: when the model invocation fails, the generation
node does *not* leave the status as `generating_requirements` — it sets the
status to `failed` immediately (the routing logic then re-runs the node,
which resets the status to generating, while `retry_count < 3`). -/
theorem c4_failure_status_counterexample :
    (generateRequirementsNode c4Store "w" (.error "boom") "t1").map
        (fun p => p.2.status) = .ok .failed ∧
    WorkflowStatus.failed ≠ .generatingRequirements := by
  exact ⟨rfl, by decide⟩

/-- Claim C4 (amended): when the model invocation fails during a requirements
generation attempt, the node increments `retry_count` by exactly 1, stores the
error message in `last_error`, does not propagate the exception — and sets the
record's status to `failed` (not the generating-state); the routing function
then re-invokes the generation node while `retry_count < 3` (re-entry resets
the status to generating) and terminates once `retry_count` reaches 3. -/
theorem c4_generation_failure_behavior (m : Manager) (id : String)
    (r : WorkflowRecord) (e now : String) (hr : mget m id = some r) :
    ∃ m' r', generateRequirementsNode m id (.error e) now = .ok (m', r') ∧
      r'.retryCount = r.retryCount + 1 ∧
      r'.lastError = some e ∧
      r'.status = .failed ∧
      (r'.retryCount < 3 → routeFromRequirements r' = .generateRequirements) ∧
      (3 ≤ r'.retryCount → routeFromRequirements r' = .wfEnd) := by
  have key : generateRequirementsNode m id (.error e) now = .ok
      (mset (mset m id { r with status := .generatingRequirements, updatedAt := now }) id
        { r with
            status := .failed
            lastError := some e
            retryCount := r.retryCount + 1
            updatedAt := now },
        { r with
            status := .failed
            lastError := some e
            retryCount := r.retryCount + 1
            updatedAt := now }) := by
    simp only [generateRequirementsNode, updateWorkflowState, hr, mget_mset_self]
    rfl
  refine ⟨_, _, key, rfl, rfl, rfl, ?_, ?_⟩
  · intro hlt
    simp only [routeFromRequirements, eq_self_iff_true, if_true]
    rw [if_pos hlt]
  · intro hge
    simp only [routeFromRequirements, eq_self_iff_true, if_true]
    rw [if_neg (Nat.not_lt.mpr hge)]

theorem c4_generation_failure_witness :
    mget c4Store "w" = some c3Rec0 ∧
    ∃ m' r', generateRequirementsNode c4Store "w" (.error "boom") "t1" = .ok (m', r') ∧
      r'.retryCount = c3Rec0.retryCount + 1 ∧
      r'.lastError = some "boom" ∧
      r'.status = .failed ∧
      (r'.retryCount < 3 → routeFromRequirements r' = .generateRequirements) ∧
      (3 ≤ r'.retryCount → routeFromRequirements r' = .wfEnd) :=
  ⟨by decide,
   c4_generation_failure_behavior c4Store "w" c3Rec0 "boom" "t1" (by decide)⟩

/-! ## Claim C9 -/

theorem dictGet_none_of_not_has (st : PyDict) (k : String)
    (h : dictHasKey st k = false) : dictGet st k = none := by
  induction st with
  | nil => rfl
  | cons hd tl ih =>
    obtain ⟨k', v⟩ := hd
    by_cases hk : k' = k
    · simp [dictHasKey, hk] at h
    · simp only [dictHasKey, if_neg hk] at h
      simp only [dictGet, if_neg hk]
      exact ih h

theorem dictHasKey_dictSet (st : PyDict) (k1 : String) (v : DVal) (k : String)
    (h : dictHasKey st k1 = true) :
    dictHasKey (dictSet st k1 v) k = dictHasKey st k := by
  induction st with
  | nil => simp [dictHasKey] at h
  | cons hd tl ih =>
    obtain ⟨k', v'⟩ := hd
    by_cases hk : k' = k1
    · subst hk
      simp [dictSet, dictHasKey]
    · simp only [dictHasKey, if_neg hk] at h
      simp only [dictSet, if_neg hk, dictHasKey, ih h]

theorem dictHasKey_dictMerge (u : List (String × DVal)) (st : PyDict) (k : String) :
    dictHasKey (dictMerge st u) k = dictHasKey st k := by
  induction u generalizing st with
  | nil => rfl
  | cons kv rest ih =>
    simp only [dictMerge, List.foldl_cons] at *
    by_cases hk : dictHasKey st kv.1 = true
    · rw [if_pos hk, ih, dictHasKey_dictSet st kv.1 kv.2 k hk]
    · rw [if_neg hk, ih]

theorem dictGet_dictSet_ne (st : PyDict) (k1 : String) (v : DVal) (k : String)
    (h : ¬ k1 = k) : dictGet (dictSet st k1 v) k = dictGet st k := by
  induction st with
  | nil => simp [dictSet, dictGet, h]
  | cons hd tl ih =>
    obtain ⟨k', v'⟩ := hd
    by_cases hk : k' = k1
    · subst hk
      simp only [dictSet, if_pos rfl, dictGet, if_neg h]
    · simp only [dictSet, if_neg hk, dictGet, ih]

/-- Claim C9: the store's update operation silently ignores any supplied key
that is not already present in the stored record (only pre-existing keys are
merged, plus the unconditional `updated_at` bump); the record created at
workflow start has no `written_file_paths` key; hence the
`written_file_paths` mapping supplied by final-document generation is never
persisted into the record. -/
theorem c9_update_ignores_unknown_keys :
    (∀ (st : PyDict) (u : List (String × DVal)) (now k : String),
       dictHasKey st k = false → k ≠ "updated_at" →
       dictGet (dictUpdate st u now) k = none) ∧
    (∀ wid fn d lp mn re now,
       dictHasKey (createDict wid fn d lp mn re now) "written_file_paths" = false) ∧
    (∀ wid fn d lp mn re now0 docs written now,
       dictGet (dictUpdate (createDict wid fn d lp mn re now0)
         (finalDocUpdates docs written) now) "written_file_paths" = none) := by
  have main : ∀ (st : PyDict) (u : List (String × DVal)) (now k : String),
      dictHasKey st k = false → k ≠ "updated_at" →
      dictGet (dictUpdate st u now) k = none := by
    intro st u now k hk hu
    have hkeys : dictHasKey (dictMerge st u) k = false := by
      rw [dictHasKey_dictMerge]; exact hk
    rw [dictUpdate, dictGet_dictSet_ne _ _ _ _ (fun h => hu h.symm)]
    exact dictGet_none_of_not_has _ _ hkeys
  have created : ∀ (wid fn d lp mn : String) (re : Bool) (now : String),
      dictHasKey (createDict wid fn d lp mn re now) "written_file_paths" = false := by
    intro wid fn d lp mn re now
    rfl
  refine ⟨main, created, ?_⟩
  intro wid fn d lp mn re now0 docs written now
  exact main _ _ now _ (created wid fn d lp mn re now0) (by decide)

theorem c9_update_ignores_unknown_keys_witness :
    dictHasKey (createDict "w" "feat" "desc" "openai" "gpt" true "t0")
      "written_file_paths" = false ∧
    dictGet (dictUpdate (createDict "w" "feat" "desc" "openai" "gpt" true "t0")
      (finalDocUpdates [("spec.md", "body")] [("spec.md", "/out/spec.md")]) "t1")
      "written_file_paths" = none :=
  ⟨c9_update_ignores_unknown_keys.2.1 "w" "feat" "desc" "openai" "gpt" true "t0",
   c9_update_ignores_unknown_keys.2.2 "w" "feat" "desc" "openai" "gpt" true "t0"
     [("spec.md", "body")] [("spec.md", "/out/spec.md")] "t1"⟩

/-! ## Claim C1 -/

/-- The argument restriction under which the pending-approval invariant is
preserved: `handle_user_approval` restricted to the three documented actions
(approve / request_revision / reject) and `transition_to_phase` restricted to
non-awaiting target statuses; the other operations are unrestricted. -/
def goodOp : StoreOp → Prop
  | .approval _ a _ _ => a = .approve ∨ a = .requestRevision ∨ a = .reject
  | .transition _ _ s _ => awaitingPhase s = none
  | _ => True

instance (op : StoreOp) : Decidable (goodOp op) := by
  cases op <;> unfold goodOp <;> infer_instance

/-- Every record of the store satisfies the pending-approval invariant. -/
def managerInv (m : Manager) : Prop :=
  ∀ id r, mget m id = some r → pendingInv r

theorem managerInv_mset (m : Manager) (wid : String) (x : WorkflowRecord)
    (hm : managerInv m) (hx : pendingInv x) : managerInv (mset m wid x) := by
  intro id r hr
  rw [mget_mset] at hr
  by_cases hid : id = wid
  · rw [if_pos hid] at hr
    cases hr
    exact hx
  · rw [if_neg hid] at hr
    exact hm id r hr

theorem managerInv_runOp (m : Manager) (op : StoreOp) (hop : goodOp op)
    (hm : managerInv m) : managerInv (runOp m op) := by
  cases op with
  | create wid fn d lp mn re now =>
    exact managerInv_mset m wid _ hm rfl
  | setPending wid ph c now =>
    by_cases h1 : ph = "requirements"
    · subst h1
      cases hg : mget m wid with
      | none =>
        have heq : runOp m (.setPending wid "requirements" c now) = m := by
          simp only [runOp, setPendingApproval, eq_self_iff_true, if_true,
            updateWorkflowState, hg]
        rw [heq]; exact hm
      | some r0 =>
        have heq : runOp m (.setPending wid "requirements" c now) =
            mset m wid
              { [FieldUpdate.status .awaitingRequirementsApproval,
                 FieldUpdate.pendingApproval (some "requirements"),
                 FieldUpdate.requirementsContent (some c)].foldl applyField r0 with
                  updatedAt := now } := by
          simp only [runOp, setPendingApproval, eq_self_iff_true, if_true,
            updateWorkflowState, hg]
        rw [heq]
        exact managerInv_mset m wid _ hm rfl
    · by_cases h2 : ph = "design"
      · subst h2
        cases hg : mget m wid with
        | none =>
          have heq : runOp m (.setPending wid "design" c now) = m := by
            simp only [runOp, setPendingApproval, String.reduceEq, ite_false,
              eq_self_iff_true, if_true, updateWorkflowState, hg]
          rw [heq]; exact hm
        | some r0 =>
          have heq : runOp m (.setPending wid "design" c now) =
              mset m wid
                { [FieldUpdate.status .awaitingDesignApproval,
                   FieldUpdate.pendingApproval (some "design"),
                   FieldUpdate.designContent (some c)].foldl applyField r0 with
                    updatedAt := now } := by
            simp only [runOp, setPendingApproval, String.reduceEq, ite_false,
              eq_self_iff_true, if_true, updateWorkflowState, hg]
          rw [heq]
          exact managerInv_mset m wid _ hm rfl
      · by_cases h3 : ph = "tasks"
        · subst h3
          cases hg : mget m wid with
          | none =>
            have heq : runOp m (.setPending wid "tasks" c now) = m := by
              simp only [runOp, setPendingApproval, String.reduceEq, ite_false,
                eq_self_iff_true, if_true, updateWorkflowState, hg]
            rw [heq]; exact hm
          | some r0 =>
            have heq : runOp m (.setPending wid "tasks" c now) =
                mset m wid
                  { [FieldUpdate.status .awaitingTasksApproval,
                     FieldUpdate.pendingApproval (some "tasks"),
                     FieldUpdate.tasksContent (some c)].foldl applyField r0 with
                      updatedAt := now } := by
              simp only [runOp, setPendingApproval, String.reduceEq, ite_false,
                eq_self_iff_true, if_true, updateWorkflowState, hg]
            rw [heq]
            exact managerInv_mset m wid _ hm rfl
        · have heq : runOp m (.setPending wid ph c now) = m := by
            simp only [runOp, setPendingApproval, if_neg h1, if_neg h2, if_neg h3]
          rw [heq]; exact hm
  | approval wid a fb now =>
    cases hg : mget m wid with
    | none =>
      have heq : runOp m (.approval wid a fb now) = m := by
        simp only [runOp, handleUserApproval, hg]
      rw [heq]; exact hm
    | some r0 =>
      cases hp : r0.pendingApproval with
      | none =>
        have heq : runOp m (.approval wid a fb now) = m := by
          simp only [runOp, handleUserApproval, hg, hp]
        rw [heq]; exact hm
      | some p =>
        have hpi : some p = awaitingPhase r0.status := by
          rw [← hp]; exact hm wid r0 hg
        rcases hop with ha | ha | ha <;> subst ha
        · -- approve: the pending phase is determined by the awaiting status
          cases hst : r0.status <;> rw [hst] at hpi <;>
            simp only [awaitingPhase] at hpi
          case awaitingRequirementsApproval =>
            obtain rfl : p = "requirements" := Option.some.inj hpi
            have heq : runOp m (.approval wid .approve fb now) =
                mset m wid
                  { ([FieldUpdate.lastUserAction (some .approve),
                      FieldUpdate.userFeedback fb,
                      FieldUpdate.pendingApproval none] ++
                     approveUpdates "requirements").foldl applyField r0 with
                      updatedAt := now } := by
              simp only [runOp, handleUserApproval, hg, hp, updateWorkflowState]
            rw [heq]
            refine managerInv_mset m wid _ hm ?_
            rw [pendingInv, List.foldl_append, approveUpdates_requirements_eq]
            rfl
          case awaitingDesignApproval =>
            obtain rfl : p = "design" := Option.some.inj hpi
            have heq : runOp m (.approval wid .approve fb now) =
                mset m wid
                  { ([FieldUpdate.lastUserAction (some .approve),
                      FieldUpdate.userFeedback fb,
                      FieldUpdate.pendingApproval none] ++
                     approveUpdates "design").foldl applyField r0 with
                      updatedAt := now } := by
              simp only [runOp, handleUserApproval, hg, hp, updateWorkflowState]
            rw [heq]
            refine managerInv_mset m wid _ hm ?_
            rw [pendingInv, List.foldl_append, approveUpdates_design_eq]
            rfl
          case awaitingTasksApproval =>
            obtain rfl : p = "tasks" := Option.some.inj hpi
            have heq : runOp m (.approval wid .approve fb now) =
                mset m wid
                  { ([FieldUpdate.lastUserAction (some .approve),
                      FieldUpdate.userFeedback fb,
                      FieldUpdate.pendingApproval none] ++
                     approveUpdates "tasks").foldl applyField r0 with
                      updatedAt := now } := by
              simp only [runOp, handleUserApproval, hg, hp, updateWorkflowState]
            rw [heq]
            refine managerInv_mset m wid _ hm ?_
            rw [pendingInv, List.foldl_append, approveUpdates_tasks_eq]
            rfl
          all_goals exact Option.noConfusion hpi
        · -- request_revision
          cases hst : r0.status <;> rw [hst] at hpi <;>
            simp only [awaitingPhase] at hpi
          case awaitingRequirementsApproval =>
            obtain rfl : p = "requirements" := Option.some.inj hpi
            have heq : runOp m (.approval wid .requestRevision fb now) =
                mset m wid
                  { ([FieldUpdate.lastUserAction (some .requestRevision),
                      FieldUpdate.userFeedback fb,
                      FieldUpdate.pendingApproval none] ++
                     revisionUpdates "requirements").foldl applyField r0 with
                      updatedAt := now } := by
              simp only [runOp, handleUserApproval, hg, hp, updateWorkflowState]
            rw [heq]
            refine managerInv_mset m wid _ hm ?_
            rw [pendingInv, List.foldl_append, revisionUpdates_requirements_eq]
            rfl
          case awaitingDesignApproval =>
            obtain rfl : p = "design" := Option.some.inj hpi
            have heq : runOp m (.approval wid .requestRevision fb now) =
                mset m wid
                  { ([FieldUpdate.lastUserAction (some .requestRevision),
                      FieldUpdate.userFeedback fb,
                      FieldUpdate.pendingApproval none] ++
                     revisionUpdates "design").foldl applyField r0 with
                      updatedAt := now } := by
              simp only [runOp, handleUserApproval, hg, hp, updateWorkflowState]
            rw [heq]
            refine managerInv_mset m wid _ hm ?_
            rw [pendingInv, List.foldl_append, revisionUpdates_design_eq]
            rfl
          case awaitingTasksApproval =>
            obtain rfl : p = "tasks" := Option.some.inj hpi
            have heq : runOp m (.approval wid .requestRevision fb now) =
                mset m wid
                  { ([FieldUpdate.lastUserAction (some .requestRevision),
                      FieldUpdate.userFeedback fb,
                      FieldUpdate.pendingApproval none] ++
                     revisionUpdates "tasks").foldl applyField r0 with
                      updatedAt := now } := by
              simp only [runOp, handleUserApproval, hg, hp, updateWorkflowState]
            rw [heq]
            refine managerInv_mset m wid _ hm ?_
            rw [pendingInv, List.foldl_append, revisionUpdates_tasks_eq]
            rfl
          all_goals exact Option.noConfusion hpi
        · -- reject: cancelled, no phase analysis needed
          have heq : runOp m (.approval wid .reject fb now) =
              mset m wid
                { ([FieldUpdate.lastUserAction (some .reject),
                    FieldUpdate.userFeedback fb,
                    FieldUpdate.pendingApproval none] ++
                   [FieldUpdate.status .cancelled]).foldl applyField r0 with
                    updatedAt := now } := by
            simp only [runOp, handleUserApproval, hg, hp, updateWorkflowState]
          rw [heq]
          exact managerInv_mset m wid _ hm rfl
  | transition wid ph st now =>
    cases hg : mget m wid with
    | none =>
      have heq : runOp m (.transition wid ph st now) = m := by
        simp only [runOp, transitionToPhase, updateWorkflowState, hg]
      rw [heq]; exact hm
    | some r0 =>
      have heq : runOp m (.transition wid ph st now) =
          mset m wid
            { [FieldUpdate.currentPhase ph, FieldUpdate.status st,
               FieldUpdate.pendingApproval none, FieldUpdate.userFeedback none,
               FieldUpdate.lastUserAction none, FieldUpdate.retryCount 0,
               FieldUpdate.lastError none].foldl applyField r0 with
                updatedAt := now } := by
        simp only [runOp, transitionToPhase, updateWorkflowState, hg]
      rw [heq]
      refine managerInv_mset m wid _ hm ?_
      exact hop.symm
  | reset wid now =>
    cases hg : mget m wid with
    | none =>
      have heq : runOp m (.reset wid now) = m := by
        simp only [runOp, resetWorkflow, hg]
      rw [heq]; exact hm
    | some r0 =>
      have heq : runOp m (.reset wid now) =
          mset m wid
            { [FieldUpdate.status .initializing, FieldUpdate.currentPhase .requirements,
               FieldUpdate.requirementsContent none, FieldUpdate.designContent none,
               FieldUpdate.tasksContent none, FieldUpdate.requirementsApproved false,
               FieldUpdate.designApproved false, FieldUpdate.tasksApproved false,
               FieldUpdate.pendingApproval none, FieldUpdate.userFeedback none,
               FieldUpdate.lastUserAction none, FieldUpdate.retryCount 0,
               FieldUpdate.lastError none,
               FieldUpdate.generatedFiles []].foldl applyField r0 with
                updatedAt := now } := by
        simp only [runOp, resetWorkflow, updateWorkflowState, hg]
      rw [heq]
      exact managerInv_mset m wid _ hm rfl

/-- The store after create, set_pending_approval and a CANCEL action. -/
def c1BadStore : Manager :=
  runOps [.create "w" "feat" "desc" "openai" "gpt" true "t0",
          .setPending "w" "requirements" "REQS" "t1",
          .approval "w" .cancel none "t2"]

/-- The record stored for `w` in `c1BadStore`. -/
def c1BadRec : WorkflowRecord :=
  (mget c1BadStore "w").getD (initialRecord "" "" "" "" "" false "")

/-- Claim C1 counterexample: `handle_user_approval` is one of the state
manager's operations, and invoking it with the CANCEL action on a workflow
awaiting requirements approval yields a reachable record whose status is
`awaiting_requirements_approval` while `pending_approval` is null — the
claimed iff fails. -/
theorem c1_pending_consistency_counterexample :
    mget c1BadStore "w" = some c1BadRec ∧
    c1BadRec.status = .awaitingRequirementsApproval ∧
    c1BadRec.pendingApproval = none ∧
    ¬ pendingInv c1BadRec := by
  refine ⟨by decide, by decide, by decide, by decide⟩

/-- Claim C1 (amended): for every workflow record reachable through the state
manager's operations — with `handle_user_approval` restricted to the
approve/request_revision/reject actions and `transition_to_phase` restricted
to non-awaiting target statuses — `pending_approval` is non-null iff the
status is one of the three awaiting-approval states, and it names the phase
implied by that status. -/
theorem c1_pending_consistency_amended (ops : List StoreOp)
    (hops : ∀ op ∈ ops, goodOp op) (id : String) (r : WorkflowRecord)
    (hr : mget (runOps ops) id = some r) : pendingInv r := by
  suffices h : managerInv (runOps ops) from h id r hr
  have key : ∀ (l : List StoreOp), (∀ op ∈ l, goodOp op) →
      ∀ (m : Manager), managerInv m → managerInv (l.foldl runOp m) := by
    intro l
    induction l with
    | nil => intro _ m hm; exact hm
    | cons op rest ih =>
      intro hall m hm
      rw [List.foldl_cons]
      exact ih (fun o ho => hall o (List.mem_cons_of_mem _ ho)) _
        (managerInv_runOp m op (hall op (List.mem_cons_self _ _)) hm)
  have hempty : managerInv ([] : Manager) := fun id r hr => by
    simp only [mget] at hr
    exact Option.noConfusion hr
  exact key ops hops [] hempty

/-- A good operation sequence for the C1 witness. -/
def c1GoodOps : List StoreOp :=
  [.create "w" "feat" "desc" "openai" "gpt" true "t0",
   .setPending "w" "requirements" "REQS" "t1",
   .approval "w" .approve none "t2"]

/-- The record stored for `w` after running `c1GoodOps`. -/
def c1GoodRec : WorkflowRecord :=
  (mget (runOps c1GoodOps) "w").getD (initialRecord "" "" "" "" "" false "")

theorem c1_pending_consistency_witness :
    (∀ op ∈ c1GoodOps, goodOp op) ∧ pendingInv c1GoodRec :=
  ⟨by decide,
   c1_pending_consistency_amended c1GoodOps (by decide) "w" c1GoodRec (by decide)⟩

/-! ## Claim C6 -/

/-- Claim C6: if every model invocation raises, the generate-and-parse retry
loop with ceiling 3 invokes generation exactly 4 times, sleeps 1s, 2s, 4s
between consecutive attempts, and returns an overall failure result. -/
theorem c6_provider_error_retry (gen : Nat → List LLMMessage → Except String String)
    (e : Nat → List LLMMessage → String) (vm : ValidationModel)
    (messages : List LLMMessage)
    (hgen : ∀ i msgs, gen i msgs = .error (e i msgs)) :
    (generateAndParse gen messages vm 3).calls = 4 ∧
    (generateAndParse gen messages vm 3).sleeps = [1, 2, 4] ∧
    (generateAndParse gen messages vm 3).result.success = false := by
  simp [generateAndParse, parseWithRetry, parseWithRetryGo, hgen, failureResult]

theorem c6_provider_error_retry_witness :
    (generateAndParse (fun _ _ => .error "boom") [] none 3).calls = 4 ∧
    (generateAndParse (fun _ _ => .error "boom") [] none 3).sleeps = [1, 2, 4] ∧
    (generateAndParse (fun _ _ => .error "boom") [] none 3).result.success = false :=
  c6_provider_error_retry (fun _ _ => .error "boom") (fun _ _ => "boom") none []
    (fun _ _ => rfl)

/-! ## Claim C5 -/

/-- On an empty cache, a response whose detected mode is not `json` makes
`parse_json_response` return the detected-mode failure without touching the
cache. -/
theorem parseJsonResponse_nonjson (content : String) (vm : ValidationModel)
    (strict : Bool) (h : (extractJsonFromResponse content).2 ≠ ParseMode.json) :
    parseJsonResponse [] content vm strict =
      (⟨false, none,
        some ("No JSON content detected, found " ++
          (extractJsonFromResponse content).2.value),
        some (extractJsonFromResponse content).2, some content⟩, []) := by
  simp only [parseJsonResponse, List.find?_nil]
  rw [if_pos h]

/-- The fallback behaviour of the retry loop: when every remaining attempt
yields a response whose detected mode is markdown or conversation, the loop
runs all remaining attempts and returns the conversation-mode fallback built
from the final attempt's response. -/
theorem parseWithRetryGo_fallback
    (gen : Nat → List LLMMessage → Except String String)
    (txt : Nat → List LLMMessage → String) (vm : ValidationModel)
    (messages retryMsgs : List LLMMessage) (maxR : Nat)
    (hgen : ∀ i msgs, gen i msgs = .ok (txt i msgs))
    (hmode : ∀ i msgs, (extractJsonFromResponse (txt i msgs)).2 = .markdown ∨
      (extractJsonFromResponse (txt i msgs)).2 = .conversation) :
    ∀ (fuel attempt : Nat) (lastErr : Option String) (calls : Nat)
      (sleeps : List Nat),
      attempt + fuel = maxR + 1 → 1 ≤ fuel →
      parseWithRetryGo gen vm messages retryMsgs maxR attempt fuel lastErr [] calls sleeps =
        ⟨fallbackResult (txt maxR (if maxR = 0 then messages else retryMsgs)),
         calls + fuel, sleeps.reverse⟩ := by
  intro fuel
  induction fuel with
  | zero =>
    intro attempt lastErr calls sleeps hsum hge
    exact absurd hge (by omega)
  | succ f ih =>
    intro attempt lastErr calls sleeps hsum _
    have hne : (extractJsonFromResponse
        (txt attempt (if attempt = 0 then messages else retryMsgs))).2 ≠
        ParseMode.json := by
      rcases hmode attempt (if attempt = 0 then messages else retryMsgs) with h | h <;>
        rw [h] <;> decide
    by_cases hA : attempt = maxR
    · have hf : f = 0 := by omega
      subst hf
      subst hA
      rcases hmode attempt (if attempt = 0 then messages else retryMsgs) with hmd | hmd <;>
        simp [parseWithRetryGo, hgen, parseJsonResponse_nonjson _ vm true hne, hmd,
          fallbackResult]
    · have hrec := ih (attempt + 1)
        (some ("No JSON content detected, found " ++
          (extractJsonFromResponse
            (txt attempt (if attempt = 0 then messages else retryMsgs))).2.value))
        (calls + 1) sleeps (by omega) (by omega)
      simp only [parseWithRetryGo, hgen, parseJsonResponse_nonjson _ vm true hne,
        if_neg hA]
      rw [hrec]
      have hc : calls + 1 + f = calls + (f + 1) := by omega
      rw [hc]
      simp

/-- Claim C5: if every model invocation returns text whose detected extraction
mode is markdown or conversation (never parseable JSON), the
generate-and-parse loop, after exhausting its retry ceiling, returns an
overall success result tagged conversation mode carrying the raw text of the
final response, not a failure. -/
theorem c5_conversation_fallback
    (gen : Nat → List LLMMessage → Except String String)
    (txt : Nat → List LLMMessage → String) (vm : ValidationModel)
    (messages : List LLMMessage) (maxRetries : Nat)
    (hgen : ∀ i msgs, gen i msgs = .ok (txt i msgs))
    (hmode : ∀ i msgs, (extractJsonFromResponse (txt i msgs)).2 = .markdown ∨
      (extractJsonFromResponse (txt i msgs)).2 = .conversation) :
    (generateAndParse gen messages vm maxRetries).result =
      fallbackResult (txt maxRetries
        (if maxRetries = 0 then messages else retryMessagesOf messages none)) ∧
    (generateAndParse gen messages vm maxRetries).result.success = true ∧
    (generateAndParse gen messages vm maxRetries).result.mode =
      some .conversation ∧
    (generateAndParse gen messages vm maxRetries).calls = maxRetries + 1 := by
  have h := parseWithRetryGo_fallback gen txt vm messages
    (retryMessagesOf messages none) maxRetries hgen hmode (maxRetries + 1) 0 none 0 []
    (by omega) (by omega)
  unfold generateAndParse parseWithRetry
  rw [h]
  exact ⟨rfl, rfl, rfl, by simp⟩

theorem c5_conversation_fallback_witness :
    (generateAndParse (fun _ _ => .ok "# md") [] none 3).result =
      fallbackResult "# md" ∧
    (generateAndParse (fun _ _ => .ok "# md") [] none 3).result.success = true ∧
    (generateAndParse (fun _ _ => .ok "# md") [] none 3).result.mode =
      some .conversation ∧
    (generateAndParse (fun _ _ => .ok "# md") [] none 3).calls = 4 :=
  c5_conversation_fallback (fun _ _ => .ok "# md") (fun _ _ => "# md") none [] 3
    (fun _ _ => rfl)
    (fun _ _ => Or.inl
      (show (extractJsonFromResponse "# md").2 = ParseMode.markdown by decide))

/-! ## Claim C7 -/

/-- A text holding a triply nested brace object in its body. -/
def c7Text : String := "See \x7b\"a\": \x7b\"b\": \x7b\"c\": 1\x7d\x7d\x7d end"

/-- The full nested object contained in `c7Text`. -/
def c7FullObj : String := "\x7b\"a\": \x7b\"b\": \x7b\"c\": 1\x7d\x7d\x7d"

/-- The proper sub-object that extraction actually returns on `c7Text`. -/
def c7SubObj : String := "\x7b\"b\": \x7b\"c\": 1\x7d\x7d"

/-- Claim C7 counterexample: `c7Text` contains, mid-body, the balanced-brace
object `c7FullObj` (with nested braces) that parses successfully as
structured data, and no earlier-priority pattern matches — yet extraction
returns the proper sub-object `c7SubObj` as payload, not that object: the
mid-text regex matches at most one level of brace nesting, so an arbitrarily
nested object is not matched whole. -/
theorem c7_nested_object_counterexample :
    (jsonLoads c7FullObj).isSome = true ∧
    containsSeq c7FullObj.data c7Text.data = true ∧
    pat1Search (pyStripList c7Text.data) = none ∧
    ¬ ((pyStripList c7Text.data).head? = some lb ∧
       (pyStripList c7Text.data).getLast? = some rb) ∧
    extractJsonFromResponse c7Text = (c7SubObj, ParseMode.json) ∧
    c7SubObj ≠ c7FullObj := by
  refine ⟨by decide, by decide, by decide, by decide, by decide, by decide⟩

/-- Claim C7 (amended): when no fenced structured block matches and the whole
stripped text is not itself a brace-delimited object, and the non-overlapping
depth-limited brace scan (which supports exactly one level of nesting) finds
a first candidate that parses successfully as structured data, extraction
returns mode `json` with that candidate as payload — for an object nested
more than two levels deep the payload is therefore a proper sub-object (see
the counterexample), not the containing object. -/
theorem c7_midtext_json_extraction (content : String) (m : List Char)
    (h1 : pat1Search (pyStripList content.data) = none)
    (h2 : ¬ ((pyStripList content.data).head? = some lb ∧
             (pyStripList content.data).getLast? = some rb))
    (h3 : pat3First (pyStripList content.data) = some m) :
    extractJsonFromResponse content = (String.mk m, ParseMode.json) ∧
    (jsonLoads (String.mk m)).isSome = true := by
  constructor
  · have hb : (decide ((pyStripList content.data).head? = some lb) &&
        decide ((pyStripList content.data).getLast? = some rb)) = false := by
      by_cases hA : (pyStripList content.data).head? = some lb
      · have hB : ¬ (pyStripList content.data).getLast? = some rb :=
          fun hB => h2 ⟨hA, hB⟩
        simp [hB]
      · simp [hA]
    simp only [extractJsonFromResponse, h1, hb, Bool.false_eq_true, if_false, h3]
  · have h3' : (pat3FindAll ((pyStripList content.data).length + 1)
        (pyStripList content.data)).find?
        (fun mm => (jsonLoads (String.mk mm)).isSome) = some m := h3
    have h4 := List.find?_some h3'
    exact h4

/-- A text with an unnested mid-body object (for the C7 witness). -/
def c7WText : String := "noise \x7b\"a\": 1\x7d tail"

theorem c7_midtext_json_extraction_witness :
    pat1Search (pyStripList c7WText.data) = none ∧
    pat3First (pyStripList c7WText.data) = some ("\x7b\"a\": 1\x7d".data) ∧
    extractJsonFromResponse c7WText = ("\x7b\"a\": 1\x7d", ParseMode.json) ∧
    (jsonLoads "\x7b\"a\": 1\x7d").isSome = true := by
  have h := c7_midtext_json_extraction c7WText ("\x7b\"a\": 1\x7d".data)
    (by decide) (by decide) (by decide)
  exact ⟨by decide, by decide, h.1, h.2⟩

end SpecBot

